import Mathlib

/-!
# gstlrc: the LRC demuxer (`gstlrcdemux.c`)

A shallow embedding of the parsing and delivery core of the `lrcdemux` element:
`gst_lrc_parse_line`, `gst_lrc_parse_lyrics` and `gst_lrc_demux_loop`, together with
the C library routines they call (`strncmp`, `sscanf`, `g_strstr_len`, `g_strndup`,
`g_strjoin`).

Conventions.
* A `gchar` is a `Char`; a byte buffer is a `List Char`.  The character of code 0 is
  the C string terminator `NUL`.
* A `gchar*` argument that the C code reads as a string is given as the list of bytes
  stored at the pointer; the string it denotes is `cstr` of that list (the bytes before
  the first NUL).
* `Option` is used in two documented roles: as the result of a function, `none` means
  that the C code has undefined behaviour (a write past the end of `lyric[100]`, or a
  `%d` conversion whose value does not fit an `int`); as the content of a variable or of
  a buffer field, `none` means that the storage was never assigned (indeterminate).
-/

namespace GstLrc

/-! ## C strings -/

/-- The string terminator. -/
def NUL : Char := Char.ofNat 0

/-- The C string stored at a pointer: the bytes before the first NUL. -/
def cstr (s : List Char) : List Char := s.takeWhile (fun c => c != NUL)

/-- The test `strncmp (a, b, n) == 0`: the two C strings agree on their first `n`
characters. -/
def strncmp (a b : List Char) (n : Nat) : Bool := (cstr a).take n == (cstr b).take n

/-- The ctype predicate `isspace` in the C locale. -/
def isspace (c : Char) : Bool :=
  c == ' ' || c == '\t' || c == '\n' || c == Char.ofNat 11 || c == Char.ofNat 12 || c == '\r'

/-- The ctype predicate `isdigit`. -/
def isdigit (c : Char) : Bool := decide ('0' ≤ c) && decide (c ≤ '9')

/-! ## `sscanf (line, "[%d:%d.%d]%s", &min, &sec, &hsec, lyric)` -/

/-- Value of a run of decimal digits. -/
def digits_val (ds : List Char) : Nat :=
  ds.foldl (fun n c => 10 * n + (c.toNat - '0'.toNat)) 0

/-- Outcome of one `%d` directive. -/
inductive ConvD where
  /-- input or matching failure: nothing is assigned and `sscanf` returns -/
  | stop
  /-- the value is not representable in an `int` (C11 7.21.6.2 p10: undefined) -/
  | undefined
  /-- the value stored in the `guint` (the `int` read, modulo 2^32) and the unread input -/
  | value (v : Nat) (rest : List Char)
deriving DecidableEq, Repr

/-- The `%d` directive: skip white space, read an optional sign and a non-empty run of
decimal digits. -/
def scan_d (s : List Char) : ConvD :=
  let s := s.dropWhile isspace
  let neg := s.head? == some '-'
  let s := if s.head? == some '-' || s.head? == some '+' then s.tail else s
  let ds := s.takeWhile isdigit
  let rest := s.dropWhile isdigit
  if ds.isEmpty then .stop
  else
    let n := digits_val ds
    if neg then (if n ≤ 2 ^ 31 then .value ((2 ^ 32 - n) % 2 ^ 32) rest else .undefined)
    else (if n < 2 ^ 31 then .value n rest else .undefined)

/-- Outcome of the `%s` directive. -/
inductive ConvS where
  /-- input failure: no non-white-space character is left, nothing is stored -/
  | stop
  /-- the word and its terminator do not fit the destination array -/
  | overrun
  /-- the word stored in the destination -/
  | value (w : List Char)
deriving DecidableEq, Repr

/-- The `%s` directive writing into an array of `size` bytes: skip white space, read
the characters up to the next white space (or the end of the string), store them
followed by a NUL. -/
def scan_s (s : List Char) (size : Nat) : ConvS :=
  let w := (s.dropWhile isspace).takeWhile (fun c => !isspace c)
  if w.isEmpty then .stop
  else if w.length + 1 ≤ size then .value w
  else .overrun

/-- An ordinary character of the format: it must be the next input character. -/
def scan_lit (c : Char) (s : List Char) : Option (List Char) :=
  match s with
  | [] => none
  | x :: t => if x == c then some t else none

/-- The automatic variables `guint min, sec, hsec; gchar lyric[100];` of
`gst_lrc_parse_line`.  They are declared without initialiser: `none` is the
indeterminate content of a variable that `sscanf` did not assign. -/
structure Locals where
  min : Option Nat
  sec : Option Nat
  hsec : Option Nat
  lyric : Option (List Char)
deriving DecidableEq, Repr

/-- The call `sscanf (line, "[%d:%d.%d]%s", &min, &sec, &hsec, lyric)` on the C string `s`:
the directives are processed in order and the scan ends at the first one that fails,
leaving the remaining variables unassigned.  The result is `none` when the call has
undefined behaviour. -/
def sscanf (s : List Char) : Option Locals :=
  match scan_lit '[' s with
  | none => some ⟨none, none, none, none⟩
  | some s1 =>
    match scan_d s1 with
    | .undefined => none
    | .stop => some ⟨none, none, none, none⟩
    | .value min s2 =>
      match scan_lit ':' s2 with
      | none => some ⟨some min, none, none, none⟩
      | some s3 =>
        match scan_d s3 with
        | .undefined => none
        | .stop => some ⟨some min, none, none, none⟩
        | .value sec s4 =>
          match scan_lit '.' s4 with
          | none => some ⟨some min, some sec, none, none⟩
          | some s5 =>
            match scan_d s5 with
            | .undefined => none
            | .stop => some ⟨some min, some sec, none, none⟩
            | .value hsec s6 =>
              match scan_lit ']' s6 with
              | none => some ⟨some min, some sec, some hsec, none⟩
              | some s7 =>
                match scan_s s7 100 with
                | .overrun => none
                | .stop => some ⟨some min, some sec, some hsec, none⟩
                | .value w => some ⟨some min, some sec, some hsec, some w⟩

/-! ## The element instance -/

/-- The constant `GST_SECOND` of `gst/gstclock.h`: one second in nanoseconds (a `gint64`). -/
def GST_SECOND : Nat := 1000000000

/-- The constant `GST_MSECOND` of `gst/gstclock.h`: one millisecond in nanoseconds. -/
def GST_MSECOND : Nat := 1000000

/-- A `GstBuffer` as the demuxer uses it: the C string copied into the buffer data and
the buffer timestamp (a `GstClockTime`, nanoseconds as a `guint64`).  A field is `none`
when it was computed from a variable that was never assigned. -/
structure GstBuffer where
  data : Option (List Char)
  timestamp : Option Nat
deriving DecidableEq, Repr

/-- The fields of `struct _GstLrcDemux` (`gstlrcdemux.h`) other than the parent element
and the two pads.  A `gchar*` field is `none` when it is `NULL`.  `lyricList` is the
`GList` seen from the node the field points to. -/
structure GstLrcDemux where
  lyrics : Option (List Char)
  title : Option (List Char)
  artist : Option (List Char)
  album : Option (List Char)
  creator : Option (List Char)
  offset : Int
  lyricList : List GstBuffer
  parsed : Bool
deriving DecidableEq, Repr

/-- The field values set by `gst_lrc_demux_init`. -/
def gst_lrc_demux_init : GstLrcDemux :=
  { lyrics := none, title := none, artist := none, album := none, creator := none,
    offset := 0, lyricList := [], parsed := false }

/-- The expression `(min * 60 + sec) * GST_SECOND + hsec * 10 * GST_MSECOND`:
`min * 60 + sec` and `hsec * 10` are computed in `guint` (32 bits), the products by the
64-bit constants and the sum in 64 bits. -/
def timestamp_of (min sec hsec : Nat) : Nat :=
  (((min * 60 + sec) % 2 ^ 32) * GST_SECOND + ((hsec * 10) % 2 ^ 32) * GST_MSECOND) % 2 ^ 64

/-- The buffer built in the timestamp branch of `gst_lrc_parse_line` from the variables
as `sscanf` left them. -/
def make_buffer (v : Locals) : GstBuffer :=
  { data := v.lyric,
    timestamp := v.min.bind fun m => v.sec.bind fun s => v.hsec.bind fun h =>
      some (timestamp_of m s h) }

/-- The function `gst_lrc_parse_line (lrc, line)`.  The seven metadata branches are
empty in the source; every other line starting with `[` goes through `sscanf` and
appends one buffer to `lrc->lyricList`.  (The C function always returns `FALSE`; the
result here is the instance after the call, `none` on undefined behaviour.) -/
def gst_lrc_parse_line (lrc : GstLrcDemux) (line : List Char) : Option GstLrcDemux :=
  if (cstr line).head? == some '[' then
    if strncmp line ['[', 't', 'i', ':'] 4 then some lrc
    else if strncmp line ['[', 'a', 'r', ':'] 4 then some lrc
    else if strncmp line ['[', 'a', 'l', ':'] 4 then some lrc
    else if strncmp line ['[', 'b', 'y', ':'] 4 then some lrc
    else if strncmp line ['[', 'r', 'e', ':'] 4 then some lrc
    else if strncmp line ['[', 'v', 'e', ':'] 4 then some lrc
    else if strncmp line ['[', 'o', 'f', 'f', 's', 'e', 't', ':'] 8 then some lrc
    else
      match sscanf (cstr line) with
      | none => none
      | some v => some { lrc with lyricList := lrc.lyricList ++ [make_buffer v] }
  else some lrc

/-! ## `gst_lrc_parse_lyrics` -/

/-- The call `g_strstr_len (data, buflen, "\n")`, `data` being the `buflen` bytes that
are left of the buffer: the offset of the first `'\n'`, if there is one before the end
of the bytes and before the first NUL.  (glib: the search is limited "to `haystack_len`
or a nul terminator byte (whichever is reached first)"; its loop runs
`while (p <= end && *p)`.) -/
def g_strstr_len : List Char → Option Nat
  | [] => none
  | c :: cs =>
    if c == NUL then none
    else if c == '\n' then some 0
    else (g_strstr_len cs).map (· + 1)

/-- The call `g_strndup (data, n)`: a copy of at most `n` bytes of the string at `data`;
like `strncpy`, the copy ends at a NUL. -/
def g_strndup (data : List Char) (n : Nat) : List Char := cstr (data.take n)

/-- The call `g_strjoin (NULL, a, b, NULL)`. -/
def g_strjoin (a b : List Char) : List Char := cstr a ++ cstr b

/-- The `do ... while (needle != NULL)` loop over one buffer.  Arguments: the instance,
the local `fragment` (`none` is `NULL`) and the unread bytes `data` (whose length is
`buflen`); result: the three of them when the loop is left.  Every turn but the last
consumes at least one byte, so `buflen + 1` turns are enough; `none` is returned when a
call of `gst_lrc_parse_line` is undefined (or when `fuel` is too small). -/
def lines_loop : Nat → GstLrcDemux → Option (List Char) → List Char →
    Option (GstLrcDemux × Option (List Char) × List Char)
  | 0, _, _, _ => none
  | fuel + 1, lrc, fragment, data =>
    match g_strstr_len data with
    | some linelen =>
      let line :=
        match fragment with
        | some f => g_strjoin f (g_strndup data linelen)
        | none => g_strndup data linelen
      match gst_lrc_parse_line lrc line with
      | none => none
      | some lrc1 => lines_loop fuel lrc1 none (data.drop (linelen + 1))
    | none => some (lrc, fragment, data)

/-- The body of `if (res == GST_FLOW_OK)`: the line loop over the buffer, then
`if (buflen != 0) fragment = g_strndup (data, buflen);`. -/
def parse_buffer (lrc : GstLrcDemux) (fragment : Option (List Char)) (buf : List Char) :
    Option (GstLrcDemux × Option (List Char)) :=
  match lines_loop (buf.length + 1) lrc fragment buf with
  | none => none
  | some (lrc1, fragment1, data) =>
    some (lrc1, if data.length != 0 then some (g_strndup data data.length) else fragment1)

/-- The value of `GstFlowReturn` with which `gst_pad_pull_range` stops answering
`GST_FLOW_OK`: end of stream, or any other value (an error). -/
inductive GstFlowStop where
  | GST_FLOW_UNEXPECTED
  | GST_FLOW_ERROR
deriving DecidableEq, Repr

/-- The upstream peer as `gst_lrc_parse_lyrics` sees it through `gst_pad_pull_range`:
the buffers returned with `GST_FLOW_OK`, in order, then the first other result. -/
structure Upstream where
  buffers : List (List Char)
  stop : GstFlowStop
deriving DecidableEq, Repr

/-- The turns of `while (res == GST_FLOW_OK)` in which the pull succeeds. -/
def pull_loop : GstLrcDemux → Option (List Char) → List (List Char) →
    Option (GstLrcDemux × Option (List Char))
  | lrc, fragment, [] => some (lrc, fragment)
  | lrc, fragment, buf :: rest =>
    match parse_buffer lrc fragment buf with
    | none => none
    | some (lrc1, fragment1) => pull_loop lrc1 fragment1 rest

/-- The last turn of the `while` loop, in which the pull fails with `stop`: on
`GST_FLOW_UNEXPECTED` a held fragment is parsed and freed; any other value only ends
the loop. -/
def pull_stop (lrc : GstLrcDemux) (fragment : Option (List Char)) (stop : GstFlowStop) :
    Option (GstLrcDemux × Option (List Char)) :=
  match stop, fragment with
  | .GST_FLOW_UNEXPECTED, some f => (gst_lrc_parse_line lrc f).map fun lrc1 => (lrc1, none)
  | _, _ => some (lrc, fragment)

/-- The function `gst_lrc_parse_lyrics (lrc)`.  The result is the instance after the
call and the `gboolean` returned: `some false` through `return FALSE`, which is
executed when the list is empty; otherwise the end of the function is reached without
a `return` and the value is indeterminate (`none`). -/
def gst_lrc_parse_lyrics (lrc : GstLrcDemux) (up : Upstream) :
    Option (GstLrcDemux × Option Bool) :=
  match pull_loop lrc none up.buffers with
  | none => none
  | some (lrc1, fragment) =>
    match pull_stop lrc1 fragment up.stop with
    | none => none
    | some (lrc2, _) => some (lrc2, if lrc2.lyricList.isEmpty then some false else none)

/-! ## `gst_lrc_demux_loop` -/

/-- What one call of `gst_lrc_demux_loop` does to its pads. -/
inductive Action where
  /-- the call `gst_pad_push (lrc->srcpad, buf)` -/
  | push (buf : GstBuffer)
  /-- the call `gst_pad_push_event (lrc->srcpad, gst_event_new_eos ())` -/
  | eos
  /-- the call `gst_pad_pause_task (pad)` -/
  | pause
deriving DecidableEq, Repr

/-- The task function `gst_lrc_demux_loop (pad)`: the instance after the call and the
pad actions in the order they are made.  The value of `ret` is only tested by an `if`
with an empty body.  Every list node holds a buffer, so the test `if (buf)` succeeds. -/
def gst_lrc_demux_loop (up : Upstream) (lrc : GstLrcDemux) :
    Option (GstLrcDemux × List Action) :=
  let afterParse : Option GstLrcDemux :=
    if !lrc.parsed then
      (gst_lrc_parse_lyrics lrc up).map fun r => { r.1 with parsed := true }
    else some lrc
  match afterParse with
  | none => none
  | some lrc1 =>
    match lrc1.lyricList with
    | buf :: next =>
      some ({ lrc1 with lyricList := next },
        if next.isEmpty then [.push buf, .eos] else [.push buf])
    | [] => some (lrc1, [.pause])

/-- The first `n` calls of the task function on an instance: the instance after them
and the pad actions of each call. -/
def drive (up : Upstream) : Nat → GstLrcDemux → Option (GstLrcDemux × List (List Action))
  | 0, lrc => some (lrc, [])
  | n + 1, lrc =>
    match gst_lrc_demux_loop up lrc with
    | none => none
    | some (lrc1, acts) => (drive up n lrc1).map fun r => (r.1, acts :: r.2)

/-! ## Specification-side notions -/

/-- The seven metadata prefixes of the LRC format. -/
def metadata_prefixes : List (List Char) :=
  [['[', 't', 'i', ':'], ['[', 'a', 'r', ':'], ['[', 'a', 'l', ':'], ['[', 'b', 'y', ':'],
   ['[', 'r', 'e', ':'], ['[', 'v', 'e', ':'], ['[', 'o', 'f', 'f', 's', 'e', 't', ':']]

/-- The lyric entries that `gst_lrc_parse_line` appends for a line taken on its own
(parsed into the empty list of a new instance). -/
def line_entries (line : List Char) : Option (List GstBuffer) :=
  (gst_lrc_parse_line gst_lrc_demux_init line).map (·.lyricList)

/-- Value of a decimal digit character. -/
def digit_value (c : Char) : Nat := c.toNat - '0'.toNat

/-- The lines of a sequence parsed one after the other (specification side). -/
def parse_lines : GstLrcDemux → List (List Char) → Option GstLrcDemux
  | lrc, [] => some lrc
  | lrc, l :: ls => (gst_lrc_parse_line lrc l).bind fun lrc1 => parse_lines lrc1 ls

/-- The entries of a sequence of lines: the concatenation, in order, of the entries
each line gives on its own (`none` when the parse of one of them is undefined). -/
def lines_entries : List (List Char) → Option (List GstBuffer)
  | [] => some []
  | l :: ls =>
    match line_entries l, lines_entries ls with
    | some es, some rest => some (es ++ rest)
    | _, _ => none

/-- What the end-of-stream turn makes of the state in which the line loop of the last
buffer was left. -/
def eos_after (r : Option (GstLrcDemux × Option (List Char) × List Char)) :
    Option GstLrcDemux :=
  r.bind fun s =>
    (pull_stop s.1 (if s.2.2.length != 0 then some (g_strndup s.2.2 s.2.2.length) else s.2.1)
      .GST_FLOW_UNEXPECTED).map (·.1)

/-- A line that is not for the timestamp branch: it does not start with `[`, or it
starts with one of the metadata prefixes (specification side). -/
def skipped (l : List Char) : Prop :=
  l.head? ≠ some '[' ∨ ∃ p ∈ metadata_prefixes, p <+: l

/-- A file of 101 bytes whose second line is 52 bytes long. -/
def long_line_file : List Char :=
  "[00:01.00]one".toList ++ List.replicate 35 ' ' ++ ['\n']
    ++ "[00:02.00]two".toList ++ List.replicate 38 ' ' ++ ['\n']

/-! ## `gst_lrc_parse_line`: lines of one kind -/

theorem cstr_append_of_not_mem (p t : List Char) (h : NUL ∉ p) : cstr (p ++ t) = p ++ cstr t := by
  induction p with
  | nil => rfl
  | cons c p ih =>
    have hc : c ≠ NUL := fun e => h (e ▸ List.mem_cons_self _ _)
    have hp : NUL ∉ p := fun e => h (List.mem_cons_of_mem _ e)
    simp [cstr, List.takeWhile_cons, hc] at ih ⊢
    exact ih hp

theorem parse_line_metadata (lrc : GstLrcDemux) (line : List Char)
    (h : ∃ p ∈ metadata_prefixes, p <+: line) : gst_lrc_parse_line lrc line = some lrc := by
  obtain ⟨p, hp, t, rfl⟩ := h
  simp only [metadata_prefixes, List.mem_cons, List.mem_singleton, List.not_mem_nil, or_false] at hp
  rcases hp with rfl | rfl | rfl | rfl | rfl | rfl | rfl <;>
    simp [gst_lrc_parse_line, strncmp, cstr, NUL, List.takeWhile_cons]

theorem digit_mem (c : Char) (h : isdigit c = true) :
    c ∈ ['0', '1', '2', '3', '4', '5', '6', '7', '8', '9'] := by
  have h1 : 48 ≤ c.toNat ∧ c.toNat ≤ 57 := by
    simp only [isdigit, Bool.and_eq_true, decide_eq_true_eq, Char.le_def] at h
    exact h
  have h2 : c = Char.ofNat c.toNat := (Char.ofNat_toNat c).symm
  generalize c.toNat = n at h1 h2
  obtain ⟨a, b⟩ := h1
  subst h2
  interval_cases n <;> decide

theorem digit_facts (c : Char) (h : isdigit c = true) :
    isspace c = false ∧ c ≠ '-' ∧ c ≠ '+' ∧ c ≠ NUL ∧ c ≠ 't' ∧ c ≠ 'a' ∧ c ≠ 'b' ∧ c ≠ 'r'
      ∧ c ≠ 'v' ∧ c ≠ 'o' ∧ digit_value c < 10 := by
  have := digit_mem c h
  simp only [List.mem_cons, List.mem_singleton, List.not_mem_nil, or_false] at this
  rcases this with rfl | rfl | rfl | rfl | rfl | rfl | rfl | rfl | rfl | rfl <;> decide

theorem scan_d_two_digits (a b sep : Char) (r : List Char) (ha : isdigit a = true)
    (hb : isdigit b = true) (hsep : isdigit sep = false) :
    scan_d (a :: b :: sep :: r) = .value (10 * digit_value a + digit_value b) (sep :: r) := by
  obtain ⟨a1, a2, a3, -, -, -, -, -, -, -, a4⟩ := digit_facts a ha
  obtain ⟨-, -, -, -, -, -, -, -, -, -, b4⟩ := digit_facts b hb
  have hlt : 10 * digit_value a + digit_value b < 2 ^ 31 := by omega
  simp [scan_d, List.dropWhile_cons, List.takeWhile_cons, a1, a2, a3, ha, hb, hsep, digits_val]
  simp [digit_value] at hlt ⊢
  omega

theorem cstr_eq_self (s : List Char) (h : NUL ∉ s) : cstr s = s := by
  have := cstr_append_of_not_mem s [] h
  simpa [cstr] using this

theorem scan_s_word (text : List Char) (n : Nat) (hne : text ≠ []) (hlen : text.length + 1 ≤ n)
    (hsp : ∀ c ∈ text, isspace c = false) : scan_s text n = .value text := by
  have h1 : text.dropWhile isspace = text := by
    cases text with
    | nil => rfl
    | cons c t => simp [List.dropWhile_cons, hsp c (List.mem_cons_self _ _)]
  have h2 : text.takeWhile (fun c => !isspace c) = text := by
    rw [List.takeWhile_eq_self_iff]
    intro c hc
    simp [hsp c hc]
  simp [scan_s, h1, h2, hne, hlen]

theorem timestamp_of_wrap (m s h : Nat) :
    timestamp_of m s h
      = ((m * 60 + s) % 2 ^ 32) * 1000000000 + ((h * 10) % 2 ^ 32) * 1000000 := by
  have h1 : (m * 60 + s) % 2 ^ 32 < 2 ^ 32 := Nat.mod_lt _ (by decide)
  have h2 : (h * 10) % 2 ^ 32 < 2 ^ 32 := Nat.mod_lt _ (by decide)
  simp only [timestamp_of, GST_SECOND, GST_MSECOND]
  apply Nat.mod_eq_of_lt
  generalize (m * 60 + s) % 2 ^ 32 = a at h1
  generalize (h * 10) % 2 ^ 32 = b at h2
  omega

theorem timestamp_of_exact (m s h : Nat) (h1 : m * 60 + s < 2 ^ 32) (h2 : h * 10 < 2 ^ 32) :
    timestamp_of m s h = (m * 60 + s) * 1000000000 + h * 10 * 1000000 := by
  rw [timestamp_of_wrap, Nat.mod_eq_of_lt h1, Nat.mod_eq_of_lt h2]

/-- C2. A line `[MM:SS.CC]TEXT`, with two decimal digits in each field and `TEXT` a
non-empty run of at most 99 characters none of which is white space (nor, the line
being a C string, NUL), makes `gst_lrc_parse_line` append exactly one buffer at the end
of the lyric list: its data is `TEXT` and its timestamp is `(MM * 60 + SS)` seconds
plus `CC * 10` milliseconds, in nanoseconds. -/
theorem parse_line_timestamp_line (lrc : GstLrcDemux) (m1 m2 s1 s2 c1 c2 : Char)
    (text : List Char)
    (hm1 : isdigit m1 = true) (hm2 : isdigit m2 = true) (hs1 : isdigit s1 = true)
    (hs2 : isdigit s2 = true) (hc1 : isdigit c1 = true) (hc2 : isdigit c2 = true)
    (hne : text ≠ []) (hlen : text.length ≤ 99)
    (htext : ∀ c ∈ text, isspace c = false ∧ c ≠ NUL) :
    gst_lrc_parse_line lrc
        ('[' :: m1 :: m2 :: ':' :: s1 :: s2 :: '.' :: c1 :: c2 :: ']' :: text)
      = some { lrc with
          lyricList := lrc.lyricList ++
            [{ data := some text,
               timestamp := some (((10 * digit_value m1 + digit_value m2) * 60
                  + (10 * digit_value s1 + digit_value s2)) * 1000000000
                  + (10 * digit_value c1 + digit_value c2) * 10 * 1000000) }] } := by
  obtain ⟨-, -, -, m1n, m1t, m1a, m1b, m1r, m1v, m1o, m1lt⟩ := digit_facts m1 hm1
  obtain ⟨-, -, -, m2n, -, -, -, -, -, -, m2lt⟩ := digit_facts m2 hm2
  obtain ⟨-, -, -, s1n, -, -, -, -, -, -, s1lt⟩ := digit_facts s1 hs1
  obtain ⟨-, -, -, s2n, -, -, -, -, -, -, s2lt⟩ := digit_facts s2 hs2
  obtain ⟨-, -, -, c1n, -, -, -, -, -, -, c1lt⟩ := digit_facts c1 hc1
  obtain ⟨-, -, -, c2n, -, -, -, -, -, -, c2lt⟩ := digit_facts c2 hc2
  have hnul : NUL ∉ '[' :: m1 :: m2 :: ':' :: s1 :: s2 :: '.' :: c1 :: c2 :: ']' :: text := by
    simp only [List.mem_cons, not_or]
    refine ⟨by decide, Ne.symm m1n, Ne.symm m2n, by decide, Ne.symm s1n, Ne.symm s2n,
      by decide, Ne.symm c1n, Ne.symm c2n, by decide, fun h => (htext _ h).2 rfl⟩
  have hscan : sscanf ('[' :: m1 :: m2 :: ':' :: s1 :: s2 :: '.' :: c1 :: c2 :: ']' :: text)
      = some ⟨some (10 * digit_value m1 + digit_value m2),
          some (10 * digit_value s1 + digit_value s2),
          some (10 * digit_value c1 + digit_value c2), some text⟩ := by
    simp only [sscanf, scan_lit, beq_self_eq_true, if_true,
      scan_d_two_digits m1 m2 ':' _ hm1 hm2 (by decide),
      scan_d_two_digits s1 s2 '.' _ hs1 hs2 (by decide),
      scan_d_two_digits c1 c2 ']' _ hc1 hc2 (by decide),
      scan_s_word text 100 hne (by omega) (fun c hc => (htext c hc).1)]
  have hts : timestamp_of (10 * digit_value m1 + digit_value m2)
      (10 * digit_value s1 + digit_value s2) (10 * digit_value c1 + digit_value c2)
      = ((10 * digit_value m1 + digit_value m2) * 60
          + (10 * digit_value s1 + digit_value s2)) * 1000000000
          + (10 * digit_value c1 + digit_value c2) * 10 * 1000000 := by
    apply timestamp_of_exact <;> omega
  simp only [gst_lrc_parse_line, strncmp, cstr_eq_self _ hnul, hscan, make_buffer, hts]
  simp [cstr, NUL, m1t, m1a, m1b, m1r, m1v, m1o, hts]

/-- Witness of C2: the line `[02:15.30]Hello` gives the text `Hello` at 135.30 s. -/
theorem parse_line_timestamp_line_witness :
    gst_lrc_parse_line gst_lrc_demux_init "[02:15.30]Hello".toList
      = some { gst_lrc_demux_init with
          lyricList := [{ data := some "Hello".toList, timestamp := some 135300000000 }] } :=
  parse_line_timestamp_line gst_lrc_demux_init '0' '2' '1' '5' '3' '0' "Hello".toList
    (by decide) (by decide) (by decide) (by decide) (by decide) (by decide) (by decide)
    (by decide) (by decide)

theorem cstr_head (line : List Char) :
    (cstr line).head? = some '[' ↔ line.head? = some '[' := by
  cases line with
  | nil => simp [cstr]
  | cons c t =>
    by_cases hc : c = NUL
    · subst hc
      simp [cstr, List.takeWhile_cons]
      decide
    · simp [cstr, List.takeWhile_cons, hc]

theorem parse_line_not_bracket (lrc : GstLrcDemux) (line : List Char)
    (h : line.head? ≠ some '[') : gst_lrc_parse_line lrc line = some lrc := by
  have h1 : ¬ (cstr line).head? = some '[' := fun e => h ((cstr_head line).1 e)
  simp [gst_lrc_parse_line, h1]

/-- C5. `gst_lrc_parse_line` leaves the lyric list as it was for every line that does
not start with `[` (the empty line included) and for every line that starts with one
of the seven metadata prefixes, `[offset:` among them: no entry is appended and no
entry, hence no timestamp, is changed. -/
theorem parse_line_keeps_lyric_list (lrc : GstLrcDemux) (line : List Char)
    (h : line.head? ≠ some '[' ∨ ∃ p ∈ metadata_prefixes, p <+: line) :
    (gst_lrc_parse_line lrc line).map (·.lyricList) = some lrc.lyricList := by
  rcases h with h | h
  · rw [parse_line_not_bracket lrc line h]; rfl
  · rw [parse_line_metadata lrc line h]; rfl

/-- Witness of C5: the line `not a tag` appends nothing. -/
theorem parse_line_keeps_lyric_list_witness :
    ("not a tag".toList.head? ≠ some '['
        ∨ ∃ p ∈ metadata_prefixes, p <+: "not a tag".toList)
      ∧ (gst_lrc_parse_line gst_lrc_demux_init "not a tag".toList).map (·.lyricList)
          = some [] :=
  ⟨Or.inl (by decide),
    parse_line_keeps_lyric_list gst_lrc_demux_init "not a tag".toList (Or.inl (by decide))⟩

/-- C6, as stated, fails: after `[ar:Some Artist]` the artist of the instance is still
unset (`NULL`), not `Some Artist`. -/
theorem parse_line_artist_not_recorded :
    (gst_lrc_parse_line gst_lrc_demux_init "[ar:Some Artist]".toList).map (·.artist)
        = some none
      ∧ (gst_lrc_parse_line gst_lrc_demux_init "[ar:Some Artist]".toList).map (·.artist)
        ≠ some (some "Some Artist".toList) := by
  decide

/-- C6, amended. A metadata line is recognised by its prefix and nothing else is done
with it: `gst_lrc_parse_line` returns with the instance exactly as it was, so the
title, artist, album, creator and offset keep their previous values and no value is
recorded or replaced. -/
theorem parse_line_metadata_records_nothing (lrc : GstLrcDemux) (line : List Char)
    (h : ∃ p ∈ metadata_prefixes, p <+: line) :
    gst_lrc_parse_line lrc line = some lrc :=
  parse_line_metadata lrc line h

/-- Witness of C6 amended: `[ar:Some Artist]` leaves a new instance as it was. -/
theorem parse_line_metadata_records_nothing_witness :
    (∃ p ∈ metadata_prefixes, p <+: "[ar:Some Artist]".toList)
      ∧ gst_lrc_parse_line gst_lrc_demux_init "[ar:Some Artist]".toList
          = some gst_lrc_demux_init :=
  ⟨⟨['[', 'a', 'r', ':'], by decide, by decide⟩,
    parse_line_metadata_records_nothing gst_lrc_demux_init "[ar:Some Artist]".toList
      ⟨['[', 'a', 'r', ':'], by decide, by decide⟩⟩

/-- The timestamp of the buffer built from assigned variables `m`, `s`, `h`:
`((m * 60 + s) mod 2^32)` seconds plus `((h * 10) mod 2^32)` milliseconds, without
wrap-around of the 64-bit sum, which is the exact value `(m * 60 + s)` seconds plus
`h * 10` milliseconds whenever `m * 60 + s` and `h * 10` fit 32 bits. -/
theorem make_buffer_timestamp (v : Locals) (m s h : Nat)
    (hm : v.min = some m) (hs : v.sec = some s) (hh : v.hsec = some h) :
    (make_buffer v).timestamp
        = some (((m * 60 + s) % 2 ^ 32) * 1000000000 + ((h * 10) % 2 ^ 32) * 1000000)
      ∧ (m * 60 + s < 2 ^ 32 → h * 10 < 2 ^ 32 →
          (make_buffer v).timestamp
            = some ((m * 60 + s) * 1000000000 + h * 10 * 1000000)) := by
  have e : (make_buffer v).timestamp = some (timestamp_of m s h) := by
    simp [make_buffer, hm, hs, hh]
  refine ⟨by rw [e, timestamp_of_wrap], fun h1 h2 => by rw [e, timestamp_of_exact m s h h1 h2]⟩

/-! ## `gst_lrc_parse_lyrics`: one buffer, then end of stream -/

theorem cstr_idem (s : List Char) : cstr (cstr s) = cstr s := by
  induction s with
  | nil => rfl
  | cons c t ih =>
    by_cases hc : c = NUL
    · simp [cstr, List.takeWhile_cons, hc]
    · simp only [cstr] at ih
      simp [cstr, List.takeWhile_cons, hc, ih]

theorem not_mem_cstr (s : List Char) : NUL ∉ cstr s := by
  intro h
  have := List.mem_takeWhile_imp h
  simp at this

theorem parse_line_cstr (lrc : GstLrcDemux) (line : List Char) :
    gst_lrc_parse_line lrc (cstr line) = gst_lrc_parse_line lrc line := by
  simp only [gst_lrc_parse_line, strncmp, cstr_idem]

theorem parse_line_nil (lrc : GstLrcDemux) : gst_lrc_parse_line lrc [] = some lrc :=
  parse_line_not_bracket lrc [] (by simp)

theorem nl_ne_nul : '\n' ≠ NUL := by decide

theorem g_strstr_len_some (D : List Char) (k : Nat) (h : g_strstr_len D = some k) :
    k < D.length ∧ D = D.take k ++ '\n' :: D.drop (k + 1) ∧ '\n' ∉ D.take k
      ∧ NUL ∉ D.take k := by
  induction D generalizing k with
  | nil => simp [g_strstr_len] at h
  | cons c cs ih =>
    simp only [g_strstr_len] at h
    by_cases h0 : c = NUL
    · simp [h0] at h
    · by_cases h1 : c = '\n'
      · subst h1
        simp only [beq_iff_eq, nl_ne_nul, if_false, if_true, Option.some.injEq] at h
        subst h
        simp
      · simp only [beq_iff_eq, h0, h1, if_false, Option.map_eq_some'] at h
        obtain ⟨j, hj, rfl⟩ := h
        obtain ⟨a, b, c1, d⟩ := ih j hj
        refine ⟨by simpa using a, ?_, ?_, ?_⟩
        · simpa using b
        · simp only [List.take_succ_cons, List.mem_cons, not_or]
          exact ⟨fun e => h1 e.symm, c1⟩
        · simp only [List.take_succ_cons, List.mem_cons, not_or]
          exact ⟨fun e => h0 e.symm, d⟩

theorem g_strstr_len_append (D X : List Char) (k : Nat) (h : g_strstr_len D = some k) :
    g_strstr_len (D ++ X) = some k := by
  induction D generalizing k with
  | nil => simp [g_strstr_len] at h
  | cons c cs ih =>
    simp only [g_strstr_len, List.cons_append] at h ⊢
    by_cases h0 : c = NUL
    · simp [h0] at h
    · by_cases h1 : c = '\n'
      · subst h1
        simpa [nl_ne_nul] using h
      · simp only [beq_iff_eq, h0, h1, if_false, Option.map_eq_some'] at h ⊢
        obtain ⟨j, hj, rfl⟩ := h
        exact ⟨j, ih j hj, rfl⟩

theorem g_strstr_len_none_nul (D X : List Char) (h : g_strstr_len D = none) (hn : NUL ∈ D) :
    g_strstr_len (D ++ X) = none ∧ cstr (D ++ X) = cstr D := by
  induction D with
  | nil => simp at hn
  | cons c cs ih =>
    simp only [g_strstr_len, List.cons_append] at h ⊢
    by_cases h0 : c = NUL
    · simp [h0, cstr, List.takeWhile_cons]
    · by_cases h1 : c = '\n'
      · subst h1
        simp [nl_ne_nul] at h
      · simp only [beq_iff_eq, h0, h1, if_false, Option.map_eq_none'] at h ⊢
        have hn1 : NUL ∈ cs := by
          rcases List.mem_cons.1 hn with e | e
          · exact absurd e.symm h0
          · exact e
        obtain ⟨a, b⟩ := ih h hn1
        simp only [cstr] at b
        exact ⟨a, by simp [cstr, List.takeWhile_cons, h0, b]⟩

theorem g_strstr_len_none_text (D X : List Char) (h : g_strstr_len D = none) (hn : NUL ∉ D) :
    '\n' ∉ D ∧ g_strstr_len (D ++ '\n' :: X) = some D.length := by
  induction D with
  | nil => simp [g_strstr_len]; decide
  | cons c cs ih =>
    simp only [g_strstr_len, List.cons_append] at h ⊢
    have h0 : c ≠ NUL := fun e => hn (e ▸ List.mem_cons_self _ _)
    have hn1 : NUL ∉ cs := fun e => hn (List.mem_cons_of_mem _ e)
    by_cases h1 : c = '\n'
    · subst h1
      simp [nl_ne_nul] at h
    · simp only [beq_iff_eq, h0, h1, if_false, Option.map_eq_none'] at h ⊢
      obtain ⟨a, b⟩ := ih h hn1
      refine ⟨?_, by simp [b]⟩
      simp only [List.mem_cons, not_or]
      exact ⟨fun e => h1 e.symm, a⟩

/-- The fuel of the line loop does not matter once it exceeds the number of bytes. -/
theorem lines_loop_fuel (n m : Nat) (lrc : GstLrcDemux) (fragment : Option (List Char))
    (D : List Char) (hn : D.length < n) (hm : D.length < m) :
    lines_loop n lrc fragment D = lines_loop m lrc fragment D := by
  induction n generalizing m lrc fragment D with
  | zero => omega
  | succ n ih =>
    cases m with
    | zero => omega
    | succ m =>
      simp only [lines_loop]
      cases hg : g_strstr_len D with
      | none => rfl
      | some k =>
        have hk := (g_strstr_len_some D k hg).1
        simp only []
        split
        · rfl
        · apply ih <;> simp only [List.length_drop] <;> omega

theorem parse_lyrics_single (lrc : GstLrcDemux) (D : List Char) :
    gst_lrc_parse_lyrics lrc ⟨[D], .GST_FLOW_UNEXPECTED⟩
      = (eos_after (lines_loop (D.length + 1) lrc none D)).map
          (fun l => (l, if l.lyricList.isEmpty then some false else none)) := by
  simp only [gst_lrc_parse_lyrics, pull_loop, parse_buffer, eos_after]
  cases lines_loop (D.length + 1) lrc none D with
  | none => rfl
  | some s =>
    obtain ⟨l, f, d⟩ := s
    simp only [Option.some_bind]
    cases pull_stop l (if d.length != 0 then some (g_strndup d d.length) else f)
      .GST_FLOW_UNEXPECTED with
    | none => rfl
    | some r => rfl

theorem getLast?_drop (D : List Char) (j : Nat) (x : Char)
    (h : (D.drop j).getLast? = some x) : D.getLast? = some x := by
  induction D generalizing j with
  | nil => simp at h
  | cons c cs ih =>
    cases j with
    | zero => simpa using h
    | succ j =>
      simp only [List.drop_succ_cons] at h
      have := ih j h
      cases cs with
      | nil => simp at this
      | cons d ds => simpa [List.getLast?_cons_cons] using this

theorem eos_after_newline (n : Nat) (lrc : GstLrcDemux) (D : List Char)
    (hn : D.length < n) (hl : D.getLast? ≠ some '\n') :
    eos_after (lines_loop n lrc none D)
      = eos_after (lines_loop (n + 1) lrc none (D ++ ['\n'])) := by
  induction n generalizing lrc D with
  | zero => omega
  | succ n ih =>
    rw [lines_loop, lines_loop]
    cases hg : g_strstr_len D with
    | some k =>
      obtain ⟨hk, -, -, -⟩ := g_strstr_len_some D k hg
      rw [g_strstr_len_append D ['\n'] k hg]
      simp only [g_strndup, List.take_append_of_le_length (Nat.le_of_lt hk)]
      cases gst_lrc_parse_line lrc (cstr (List.take k D)) with
      | none => rfl
      | some lrc1 =>
        simp only [List.drop_append_of_le_length (Nat.succ_le_of_lt hk)]
        apply ih
        · simp only [List.length_drop]; omega
        · intro e
          exact hl (getLast?_drop D (k + 1) '\n' e)
    | none =>
      by_cases hnul : NUL ∈ D
      · obtain ⟨a, b⟩ := g_strstr_len_none_nul D ['\n'] hg hnul
        have hne : D ≠ [] := by
          intro e
          simp [e] at hnul
        rw [a]
        simp [eos_after, g_strndup, hne, b]
      · obtain ⟨a, b⟩ := g_strstr_len_none_text D [] hg hnul
        rw [b]
        simp only [g_strndup, List.take_left', List.drop_left', eos_after, Option.some_bind,
          List.length_nil, bne_self_eq_false, Bool.false_eq_true, if_false]
        cases D with
        | nil => simp [pull_stop, cstr, parse_line_nil, lines_loop, g_strstr_len]
        | cons c cs =>
          cases hp : gst_lrc_parse_line lrc (cstr (c :: cs)) with
          | none => simp [pull_stop, hp]
          | some lrc1 => simp [pull_stop, hp, lines_loop, g_strstr_len]

theorem parse_line_eq (lrc : GstLrcDemux) (line : List Char) :
    gst_lrc_parse_line lrc line
      = (line_entries line).map fun es => { lrc with lyricList := lrc.lyricList ++ es } := by
  simp only [line_entries, gst_lrc_parse_line, gst_lrc_demux_init]
  split_ifs <;> try simp
  cases sscanf (cstr line) <;> simp

theorem parse_lines_eq (lrc : GstLrcDemux) (ls : List (List Char)) :
    parse_lines lrc ls
      = (lines_entries ls).map fun es => { lrc with lyricList := lrc.lyricList ++ es } := by
  induction ls generalizing lrc with
  | nil => simp [parse_lines, lines_entries]
  | cons l ls ih =>
    simp only [parse_lines, lines_entries]
    rw [parse_line_eq lrc l]
    cases line_entries l with
    | none => rfl
    | some es =>
      simp only [Option.map_some', Option.some_bind, ih]
      cases lines_entries ls with
      | none => rfl
      | some rest => simp

theorem splitOn_found (D : List Char) (k : Nat) (hg : g_strstr_len D = some k) :
    D.splitOn '\n' = D.take k :: (D.drop (k + 1)).splitOn '\n' := by
  obtain ⟨-, hD, hnl, -⟩ := g_strstr_len_some D k hg
  conv_lhs => rw [hD]
  exact List.splitOnP_first (· == '\n') (D.take k)
    (fun x hx e => hnl (by simpa using (beq_iff_eq.1 e) ▸ hx)) '\n' (by simp)
    (D.drop (k + 1))

theorem eos_after_lines (n : Nat) (lrc : GstLrcDemux) (D : List Char)
    (hn : D.length < n) (hnul : NUL ∉ D) :
    eos_after (lines_loop n lrc none D) = parse_lines lrc (D.splitOn '\n') := by
  induction n generalizing lrc D with
  | zero => omega
  | succ n ih =>
    rw [lines_loop]
    cases hg : g_strstr_len D with
    | some k =>
      have hk := (g_strstr_len_some D k hg).1
      rw [splitOn_found D k hg]
      simp only [g_strndup, parse_lines, parse_line_cstr]
      cases gst_lrc_parse_line lrc (List.take k D) with
      | none => rfl
      | some lrc1 =>
        simp only [Option.some_bind]
        apply ih
        · simp only [List.length_drop]; omega
        · exact fun e => hnul (List.mem_of_mem_drop e)
    | none =>
      obtain ⟨a, -⟩ := g_strstr_len_none_text D [] hg hnul
      have hsplit : D.splitOn '\n' = [D] :=
        List.splitOnP_eq_single (· == '\n') D (fun x hx e => a (by simpa using (beq_iff_eq.1 e) ▸ hx))
      rw [hsplit]
      cases D with
      | nil => simp [eos_after, pull_stop, parse_lines, parse_line_nil]
      | cons c cs =>
        have ht : List.take (c :: cs).length (c :: cs) = c :: cs := List.take_length _
        cases hp : gst_lrc_parse_line lrc (c :: cs) <;>
          simp [eos_after, g_strndup, pull_stop, parse_lines, ht, parse_line_cstr, hp]

/-- C8, as stated, fails on an input holding a NUL byte: the search for `'\n'` stops at
the NUL, so the timestamp line that follows it is never parsed, although it is one of
the `'\n'`-separated lines of the input. -/
theorem parse_lyrics_stops_at_nul :
    (gst_lrc_parse_lyrics gst_lrc_demux_init
        ⟨[NUL :: "\n[00:01.00]x\n".toList], .GST_FLOW_UNEXPECTED⟩).map (fun r => r.1.lyricList)
        = some []
      ∧ lines_entries ((NUL :: "\n[00:01.00]x\n".toList).splitOn '\n')
        = some [{ data := some ['x'], timestamp := some 1000000000 }] := by
  decide

/-- C8, amended. For every input without NUL byte delivered as a single buffer followed
by end-of-stream, the lyric list built by `gst_lrc_parse_lyrics` is the list it started
from followed by the concatenation, in file order, of the entries that
`gst_lrc_parse_line` gives for each `'\n'`-separated line of the input: nothing is
dropped, duplicated, merged or reordered, whatever the timestamps are (and the parse is
undefined exactly when that of one of the lines is). -/
theorem parse_lyrics_keeps_parse_order (lrc : GstLrcDemux) (input : List Char)
    (hnul : NUL ∉ input) :
    (gst_lrc_parse_lyrics lrc ⟨[input], .GST_FLOW_UNEXPECTED⟩).map (fun r => r.1.lyricList)
      = (lines_entries (input.splitOn '\n')).map (fun es => lrc.lyricList ++ es) := by
  rw [parse_lyrics_single, eos_after_lines _ lrc input (Nat.lt_succ_self _) hnul,
    parse_lines_eq]
  cases lines_entries (input.splitOn '\n') <;> rfl

/-- Witness of C8 amended: timestamps that go backwards and repeat are kept as they
come. -/
theorem parse_lyrics_keeps_parse_order_witness :
    NUL ∉ "[00:02.00]b\nnote\n[00:01.00]a\n[00:01.00]a".toList
      ∧ (gst_lrc_parse_lyrics gst_lrc_demux_init
          ⟨["[00:02.00]b\nnote\n[00:01.00]a\n[00:01.00]a".toList], .GST_FLOW_UNEXPECTED⟩).map
            (fun r => r.1.lyricList)
        = some [{ data := some ['b'], timestamp := some 2000000000 },
                { data := some ['a'], timestamp := some 1000000000 },
                { data := some ['a'], timestamp := some 1000000000 }] :=
  ⟨by decide,
    (parse_lyrics_keeps_parse_order gst_lrc_demux_init
      "[00:02.00]b\nnote\n[00:01.00]a\n[00:01.00]a".toList (by decide)).trans (by decide)⟩

theorem g_strstr_len_of_not_mem (D : List Char) (h : '\n' ∉ D) : g_strstr_len D = none := by
  induction D with
  | nil => rfl
  | cons c cs ih =>
    have h1 : c ≠ '\n' := fun e => h (e ▸ List.mem_cons_self _ _)
    have h2 : '\n' ∉ cs := fun e => h (List.mem_cons_of_mem _ e)
    simp only [g_strstr_len, ih h2, Option.map_none']
    by_cases h0 : c = NUL <;> simp [h0, h1]

theorem lines_loop_complete (ls : List (List Char)) (frag : List Char)
    (hls : ∀ l ∈ ls, '\n' ∉ l ∧ NUL ∉ l) (hfn : '\n' ∉ frag) (n : Nat) (lrc : GstLrcDemux)
    (hn : ((ls.map (· ++ ['\n'])).flatten ++ frag).length < n) :
    lines_loop n lrc none ((ls.map (· ++ ['\n'])).flatten ++ frag)
      = (parse_lines lrc ls).map (fun l => (l, none, frag)) := by
  induction ls generalizing n lrc with
  | nil =>
    cases n with
    | zero => omega
    | succ k =>
      simp only [List.map_nil, List.flatten_nil, List.nil_append, lines_loop,
        g_strstr_len_of_not_mem frag hfn, parse_lines, Option.map_some']
  | cons l ls ih =>
    obtain ⟨hl1, hl2⟩ := hls l (List.mem_cons_self _ _)
    have hdata : (((l :: ls).map (· ++ ['\n'])).flatten ++ frag)
        = l ++ '\n' :: ((ls.map (· ++ ['\n'])).flatten ++ frag) := by
      simp [List.append_assoc]
    rw [hdata] at hn ⊢
    cases n with
    | zero => omega
    | succ k =>
      have hg := (g_strstr_len_none_text l ((ls.map (· ++ ['\n'])).flatten ++ frag)
        (g_strstr_len_of_not_mem l hl1) hl2).2
      have htake : List.take l.length (l ++ '\n' :: ((ls.map (· ++ ['\n'])).flatten ++ frag))
          = l := List.take_left' rfl
      have hdrop : List.drop (l.length + 1)
          (l ++ '\n' :: ((ls.map (· ++ ['\n'])).flatten ++ frag))
          = (ls.map (· ++ ['\n'])).flatten ++ frag := by
        rw [← List.drop_drop, List.drop_left' rfl]
        rfl
      rw [lines_loop, hg]
      simp only [g_strndup, htake, parse_line_cstr, hdrop, parse_lines]
      cases gst_lrc_parse_line lrc l with
      | none => rfl
      | some lrc1 =>
        simp only [Option.some_bind]
        apply ih (fun x hx => hls x (List.mem_cons_of_mem _ hx))
        simp only [List.length_append, List.length_cons] at hn ⊢
        omega

theorem pull_loop_complete (ls : List (List Char)) (frag : List Char)
    (hls : ∀ l ∈ ls, '\n' ∉ l ∧ NUL ∉ l) (hfn : '\n' ∉ frag ∧ NUL ∉ frag)
    (lrc : GstLrcDemux) :
    pull_loop lrc none [(ls.map (· ++ ['\n'])).flatten ++ frag]
      = (parse_lines lrc ls).map
          (fun l => (l, if frag.length != 0 then some frag else none)) := by
  rw [pull_loop, parse_buffer,
    lines_loop_complete ls frag hls hfn.1 _ lrc (Nat.lt_succ_self _)]
  cases parse_lines lrc ls with
  | none => rfl
  | some l => simp [pull_loop, g_strndup, cstr_eq_self frag hfn.2]

/-- C9. At end of stream a held fragment is handed to `gst_lrc_parse_line` once, as a
last line, and the fragment is cleared; without a fragment nothing more is parsed
(1, 2). Hence an input delivered as a single buffer that does not end in `'\n'` gives
the same result as the same input with a `'\n'` appended (3). For a buffer made of the
complete lines `ls`, each followed by `'\n'`, and then of a non-empty residue `frag`
(text without NUL): after the buffer the lines of `ls` are parsed, in order, and `frag`
is held, not parsed (4); with end of stream the result is that of the lines of `ls`
followed by one parse of `frag` (5); without the residue no fragment is held (6) and
end of stream parses nothing more than the lines of `ls` (7). -/
theorem eos_flushes_fragment (lrc : GstLrcDemux) (f input : List Char)
    (ls : List (List Char)) (frag : List Char)
    (h : input.getLast? ≠ some '\n')
    (hls : ∀ l ∈ ls, '\n' ∉ l ∧ NUL ∉ l) (hne : frag ≠ [])
    (hfn : '\n' ∉ frag ∧ NUL ∉ frag) :
    pull_stop lrc (some f) .GST_FLOW_UNEXPECTED
        = (gst_lrc_parse_line lrc f).map (fun l => (l, none))
      ∧ pull_stop lrc none .GST_FLOW_UNEXPECTED = some (lrc, none)
      ∧ gst_lrc_parse_lyrics lrc ⟨[input], .GST_FLOW_UNEXPECTED⟩
        = gst_lrc_parse_lyrics lrc ⟨[input ++ ['\n']], .GST_FLOW_UNEXPECTED⟩
      ∧ pull_loop lrc none [(ls.map (· ++ ['\n'])).flatten ++ frag]
        = (parse_lines lrc ls).map (fun l => (l, some frag))
      ∧ gst_lrc_parse_lyrics lrc
          ⟨[(ls.map (· ++ ['\n'])).flatten ++ frag], .GST_FLOW_UNEXPECTED⟩
        = ((parse_lines lrc ls).bind fun l => gst_lrc_parse_line l frag).map
            (fun l => (l, if l.lyricList.isEmpty then some false else none))
      ∧ pull_loop lrc none [(ls.map (· ++ ['\n'])).flatten]
        = (parse_lines lrc ls).map (fun l => (l, none))
      ∧ gst_lrc_parse_lyrics lrc ⟨[(ls.map (· ++ ['\n'])).flatten], .GST_FLOW_UNEXPECTED⟩
        = (parse_lines lrc ls).map
            (fun l => (l, if l.lyricList.isEmpty then some false else none)) := by
  have h4 : pull_loop lrc none [(ls.map (· ++ ['\n'])).flatten ++ frag]
      = (parse_lines lrc ls).map (fun l => (l, some frag)) := by
    rw [pull_loop_complete ls frag hls hfn lrc]
    simp [hne]
  have h6 : pull_loop lrc none [(ls.map (· ++ ['\n'])).flatten]
      = (parse_lines lrc ls).map (fun l => (l, none)) := by
    have := pull_loop_complete ls [] hls ⟨by simp, by simp⟩ lrc
    simpa using this
  refine ⟨rfl, rfl, ?_, h4, ?_, h6, ?_⟩
  · rw [parse_lyrics_single, parse_lyrics_single,
      eos_after_newline _ lrc input (Nat.lt_succ_self _) h]
    simp
  · simp only [gst_lrc_parse_lyrics, h4]
    cases parse_lines lrc ls with
    | none => rfl
    | some l =>
      simp only [Option.map_some', Option.some_bind, pull_stop]
      cases gst_lrc_parse_line l frag <;> rfl
  · simp only [gst_lrc_parse_lyrics, h6]
    cases parse_lines lrc ls with
    | none => rfl
    | some l => rfl

/-- Witness of C9: the buffer `[00:01.00]a\n[00:02.00]b`. After the pull the list holds
the entry of the first line and `[00:02.00]b` is held; end of stream adds its entry;
the result is the same with a final newline; without the residue only the first entry
is there. -/
theorem eos_flushes_fragment_witness :
    pull_loop gst_lrc_demux_init none ["[00:01.00]a\n[00:02.00]b".toList]
        = some ({ gst_lrc_demux_init with
            lyricList := [{ data := some ['a'], timestamp := some 1000000000 }] },
            some "[00:02.00]b".toList)
      ∧ gst_lrc_parse_lyrics gst_lrc_demux_init
          ⟨["[00:01.00]a\n[00:02.00]b".toList], .GST_FLOW_UNEXPECTED⟩
        = some ({ gst_lrc_demux_init with
            lyricList := [{ data := some ['a'], timestamp := some 1000000000 },
                          { data := some ['b'], timestamp := some 2000000000 }] }, none)
      ∧ gst_lrc_parse_lyrics gst_lrc_demux_init
          ⟨["[00:01.00]a\n[00:02.00]b".toList ++ ['\n']], .GST_FLOW_UNEXPECTED⟩
        = some ({ gst_lrc_demux_init with
            lyricList := [{ data := some ['a'], timestamp := some 1000000000 },
                          { data := some ['b'], timestamp := some 2000000000 }] }, none)
      ∧ gst_lrc_parse_lyrics gst_lrc_demux_init ⟨["[00:01.00]a\n".toList], .GST_FLOW_UNEXPECTED⟩
        = some ({ gst_lrc_demux_init with
            lyricList := [{ data := some ['a'], timestamp := some 1000000000 }] }, none) := by
  have T := eos_flushes_fragment gst_lrc_demux_init [] "[00:01.00]a\n[00:02.00]b".toList
    ["[00:01.00]a".toList] "[00:02.00]b".toList (by decide) (by decide) (by decide)
    (by decide)
  exact ⟨T.2.2.2.1.trans (by decide), T.2.2.2.2.1.trans (by decide),
    T.2.2.1.symm.trans (T.2.2.2.2.1.trans (by decide)), T.2.2.2.2.2.2.trans (by decide)⟩

/-! ## Inputs without a line for the timestamp branch -/

theorem skipped_parse (lrc : GstLrcDemux) (l : List Char) (h : skipped l) :
    gst_lrc_parse_line lrc l = some lrc := by
  rcases h with h | h
  · exact parse_line_not_bracket lrc l h
  · exact parse_line_metadata lrc l h

theorem skipped_append (s t : List Char) (hs : skipped s) (ht : skipped t) :
    skipped (s ++ t) := by
  cases s with
  | nil => simpa using ht
  | cons c s =>
    rcases hs with hs | ⟨p, hp, hps⟩
    · exact Or.inl (by simpa using hs)
    · exact Or.inr ⟨p, hp, hps.trans (List.prefix_append _ _)⟩

theorem skipped_cstr (l : List Char) (h : skipped l) : skipped (cstr l) := by
  rcases h with h | ⟨p, hp, t, rfl⟩
  · exact Or.inl (fun e => h ((cstr_head l).1 e))
  · have hn : ∀ q ∈ metadata_prefixes, NUL ∉ q := by decide
    rw [cstr_append_of_not_mem p t (hn p hp)]
    exact Or.inr ⟨p, hp, List.prefix_append _ _⟩

theorem splitOn_first_segment (D : List Char) (hg : g_strstr_len D = none) :
    ∃ l0 rest, D.splitOn '\n' = l0 :: rest ∧ cstr D = cstr l0 := by
  induction D with
  | nil => exact ⟨[], [], rfl, rfl⟩
  | cons c cs ih =>
    simp only [g_strstr_len] at hg
    have hcons : (c :: cs).splitOn '\n'
        = if (c == '\n') = true then [] :: cs.splitOn '\n'
          else (cs.splitOn '\n').modifyHead (List.cons c) :=
      List.splitOnP_cons (· == '\n') c cs
    by_cases h0 : c = NUL
    · subst h0
      have hne : (NUL == '\n') = false := by decide
      rw [hcons, hne]
      cases hs : cs.splitOn '\n' with
      | nil => exact absurd hs (List.splitOnP_ne_nil _ _)
      | cons l0 rest =>
        exact ⟨NUL :: l0, rest, by simp [List.modifyHead], by simp [cstr, List.takeWhile_cons]⟩
    · by_cases h1 : c = '\n'
      · subst h1
        simp [nl_ne_nul] at hg
      · simp only [beq_iff_eq, h0, h1, if_false, Option.map_eq_none'] at hg
        obtain ⟨l0, rest, hs, hc⟩ := ih hg
        rw [hcons]
        simp only [cstr] at hc
        exact ⟨c :: l0, rest, by simp [h1, hs, List.modifyHead],
          by simp [cstr, List.takeWhile_cons, h0, hc]⟩

theorem lines_loop_skipped (n : Nat) (lrc : GstLrcDemux) (frag : Option (List Char))
    (D : List Char) (hn : D.length < n) (hf : ∀ s, frag = some s → skipped s)
    (hD : ∀ l ∈ D.splitOn '\n', skipped l) :
    ∃ frag1 D1, lines_loop n lrc frag D = some (lrc, frag1, D1)
      ∧ (∀ s, frag1 = some s → skipped s) ∧ g_strstr_len D1 = none
      ∧ (∀ l ∈ D1.splitOn '\n', skipped l) := by
  induction n generalizing frag D with
  | zero => omega
  | succ n ih =>
    rw [lines_loop]
    cases hg : g_strstr_len D with
    | none => exact ⟨frag, D, rfl, hf, hg, hD⟩
    | some k =>
      have hk := (g_strstr_len_some D k hg).1
      have hsplit := splitOn_found D k hg
      have h1 : skipped (g_strndup D k) :=
        skipped_cstr _ (hD _ (by rw [hsplit]; exact List.mem_cons_self _ _))
      have htail := ih none (D.drop (k + 1)) (by simp only [List.length_drop]; omega)
        (fun s hs => by cases hs)
        (fun l hl => hD l (by rw [hsplit]; exact List.mem_cons_of_mem _ hl))
      cases frag with
      | none =>
        simp only [skipped_parse lrc _ h1]
        exact htail
      | some f =>
        have h2 : skipped (g_strjoin f (g_strndup D k)) :=
          skipped_append _ _ (skipped_cstr f (hf f rfl)) (skipped_cstr _ h1)
        simp only [skipped_parse lrc _ h2]
        exact htail

theorem parse_buffer_skipped (lrc : GstLrcDemux) (frag : Option (List Char))
    (buf : List Char) (hf : ∀ s, frag = some s → skipped s)
    (hD : ∀ l ∈ buf.splitOn '\n', skipped l) :
    ∃ frag1, parse_buffer lrc frag buf = some (lrc, frag1)
      ∧ (∀ s, frag1 = some s → skipped s) := by
  obtain ⟨frag1, D1, h1, h2, h3, h4⟩ :=
    lines_loop_skipped (buf.length + 1) lrc frag buf (Nat.lt_succ_self _) hf hD
  refine ⟨_, by rw [parse_buffer, h1], ?_⟩
  intro s hs
  split at hs
  · obtain ⟨l0, rest, h5, h6⟩ := splitOn_first_segment D1 h3
    cases hs
    simp only [g_strndup, List.take_length, h6]
    exact skipped_cstr l0 (h4 l0 (by rw [h5]; exact List.mem_cons_self _ _))
  · exact h2 s hs

theorem pull_loop_skipped (lrc : GstLrcDemux) (frag : Option (List Char))
    (bufs : List (List Char)) (hf : ∀ s, frag = some s → skipped s)
    (hD : ∀ buf ∈ bufs, ∀ l ∈ buf.splitOn '\n', skipped l) :
    ∃ frag1, pull_loop lrc frag bufs = some (lrc, frag1)
      ∧ (∀ s, frag1 = some s → skipped s) := by
  induction bufs generalizing frag with
  | nil => exact ⟨frag, rfl, hf⟩
  | cons buf rest ih =>
    obtain ⟨frag1, h1, h2⟩ :=
      parse_buffer_skipped lrc frag buf hf (hD buf (List.mem_cons_self _ _))
    obtain ⟨frag2, h3, h4⟩ := ih frag1 h2 (fun b hb => hD b (List.mem_cons_of_mem _ hb))
    exact ⟨frag2, by rw [pull_loop, h1]; exact h3, h4⟩

theorem parse_lyrics_skipped (lrc : GstLrcDemux) (up : Upstream)
    (hD : ∀ buf ∈ up.buffers, ∀ l ∈ buf.splitOn '\n', skipped l) :
    gst_lrc_parse_lyrics lrc up
      = some (lrc, if lrc.lyricList.isEmpty then some false else none) := by
  obtain ⟨frag1, h1, h2⟩ := pull_loop_skipped lrc none up.buffers (fun s hs => by cases hs) hD
  rw [gst_lrc_parse_lyrics, h1]
  cases hstop : up.stop with
  | GST_FLOW_ERROR => cases frag1 <;> rfl
  | GST_FLOW_UNEXPECTED =>
    cases frag1 with
    | none => rfl
    | some s => simp [pull_stop, skipped_parse lrc s (h2 s rfl)]

/-! ## The task function called again and again -/

theorem drive_succ_actions (up : Upstream) (lrc lrc1 : GstLrcDemux) (acts : List Action)
    (n : Nat) (outs : List (List Action))
    (hloop : gst_lrc_demux_loop up lrc = some (lrc1, acts))
    (h : (drive up n lrc1).map (·.2) = some outs) :
    (drive up (n + 1) lrc).map (·.2) = some (acts :: outs) := by
  rw [drive, hloop]
  cases hd : drive up n lrc1 with
  | none => simp [hd] at h
  | some r =>
    simp only [hd, Option.map_some', Option.some.injEq] at h
    simp [hd, h]

theorem drive_drained (up : Upstream) (lrc : GstLrcDemux) (hp : lrc.parsed = true)
    (hl : lrc.lyricList = []) (k : Nat) :
    (drive up k lrc).map (·.2) = some (List.replicate k [Action.pause]) := by
  induction k with
  | zero => rfl
  | succ k ih =>
    have hloop : gst_lrc_demux_loop up lrc = some (lrc, [Action.pause]) := by
      simp [gst_lrc_demux_loop, hp, hl]
    rw [drive_succ_actions up lrc lrc _ k _ hloop ih, List.replicate_succ]

theorem drive_parsed (up : Upstream) (lrc : GstLrcDemux) (hp : lrc.parsed = true)
    (front : List GstBuffer) (last : GstBuffer) (hl : lrc.lyricList = front ++ [last])
    (k : Nat) :
    (drive up (front.length + 1 + k) lrc).map (·.2)
      = some (front.map (fun e => [Action.push e]) ++ [[Action.push last, Action.eos]]
          ++ List.replicate k [Action.pause]) := by
  induction front generalizing lrc with
  | nil =>
    have hloop : gst_lrc_demux_loop up lrc
        = some ({ lrc with lyricList := [] }, [Action.push last, Action.eos]) := by
      simp [gst_lrc_demux_loop, hp, hl]
    have hk : ([] : List GstBuffer).length + 1 + k = k + 1 := by simp; omega
    rw [hk, drive_succ_actions up lrc _ _ k _ hloop
      (drive_drained up { lrc with lyricList := [] } hp rfl k)]
    rfl
  | cons e front ih =>
    have hloop : gst_lrc_demux_loop up lrc
        = some ({ lrc with lyricList := front ++ [last] }, [Action.push e]) := by
      simp [gst_lrc_demux_loop, hp, hl]
    have hk : (e :: front).length + 1 + k = (front.length + 1 + k) + 1 := by simp; omega
    rw [hk, drive_succ_actions up lrc _ _ _ _ hloop
      (ih { lrc with lyricList := front ++ [last] } hp rfl)]
    rfl

theorem drive_first (up : Upstream) (lrc lrc1 : GstLrcDemux) (ret : Option Bool)
    (hp : lrc.parsed = false) (h : gst_lrc_parse_lyrics lrc up = some (lrc1, ret)) (n : Nat) :
    drive up (n + 1) lrc = drive up (n + 1) { lrc1 with parsed := true } := by
  have hloop : gst_lrc_demux_loop up lrc
      = gst_lrc_demux_loop up { lrc1 with parsed := true } := by
    simp [gst_lrc_demux_loop, hp, h]
  rw [drive, drive, hloop]

/-! ## Buffer boundaries, delivery, read errors -/

/-- C1 fails on the code. The bytes `[00:01.00]ab\n` give one entry when they come as
a single buffer, and none when they come as the three buffers `[00:01.00]`, `a`,
`b\n`: the second buffer holds no `'\n'`, so its bytes replace the fragment kept from
the first one instead of being joined to it, and the line parsed is `ab`. -/
theorem parse_lyrics_depends_on_chunking :
    "[00:01.00]".toList ++ "a".toList ++ "b\n".toList = "[00:01.00]ab\n".toList
      ∧ (gst_lrc_parse_lyrics gst_lrc_demux_init
          ⟨["[00:01.00]ab\n".toList], .GST_FLOW_UNEXPECTED⟩).map (fun r => (r.1.lyricList, r.2))
        = some ([{ data := some ['a', 'b'], timestamp := some 1000000000 }], none)
      ∧ (gst_lrc_parse_lyrics gst_lrc_demux_init
          ⟨["[00:01.00]".toList, "a".toList, "b\n".toList], .GST_FLOW_UNEXPECTED⟩).map
            (fun r => (r.1.lyricList, r.2))
        = some ([], some false) := by
  decide

/-- The same defect with full blocks of `LRC_BLOCK_SIZE` = 50 bytes: the second line of
`long_line_file` starts in the first block, fills the second and ends in the third, and
its entry is lost, whereas the file taken as one buffer gives both entries. -/
theorem parse_lyrics_loses_long_line :
    long_line_file.length = 101
      ∧ (gst_lrc_parse_lyrics gst_lrc_demux_init
          ⟨[long_line_file.take 50, (long_line_file.drop 50).take 50, long_line_file.drop 100],
            .GST_FLOW_UNEXPECTED⟩).map (fun r => r.1.lyricList)
        = some [{ data := some ['o', 'n', 'e'], timestamp := some 1000000000 }]
      ∧ (gst_lrc_parse_lyrics gst_lrc_demux_init
          ⟨[long_line_file], .GST_FLOW_UNEXPECTED⟩).map (fun r => r.1.lyricList)
        = some [{ data := some ['o', 'n', 'e'], timestamp := some 1000000000 },
                { data := some ['t', 'w', 'o'], timestamp := some 2000000000 }] := by
  decide

/-- C3. When the source of a new instance parses to the entries `front ++ [last]`
(N = `front.length + 1` of them), the first N calls of `gst_lrc_demux_loop` push them
one per call in list order, the Nth call pushes the end-of-stream event right after the
last entry, and each of the `k` calls that follow only pauses the task. -/
theorem drive_pushes_each_entry_once (up : Upstream) (lrc1 : GstLrcDemux)
    (ret : Option Bool) (front : List GstBuffer) (last : GstBuffer)
    (h : gst_lrc_parse_lyrics gst_lrc_demux_init up = some (lrc1, ret))
    (hl : lrc1.lyricList = front ++ [last]) (k : Nat) :
    (drive up (front.length + 1 + k) gst_lrc_demux_init).map (·.2)
      = some (front.map (fun e => [Action.push e]) ++ [[Action.push last, Action.eos]]
          ++ List.replicate k [Action.pause]) := by
  have hk : front.length + 1 + k = (front.length + k) + 1 := by omega
  rw [hk, drive_first up gst_lrc_demux_init lrc1 ret rfl h, ← hk]
  exact drive_parsed up { lrc1 with parsed := true } rfl front last hl k

/-- Witness of C3: two entries, four calls. -/
theorem drive_pushes_each_entry_once_witness :
    gst_lrc_parse_lyrics gst_lrc_demux_init
        ⟨["[00:01.00]a\n[00:02.00]b\n".toList], .GST_FLOW_UNEXPECTED⟩
        = some ({ gst_lrc_demux_init with
            lyricList := [{ data := some ['a'], timestamp := some 1000000000 }]
              ++ [{ data := some ['b'], timestamp := some 2000000000 }] }, none)
      ∧ (drive ⟨["[00:01.00]a\n[00:02.00]b\n".toList], .GST_FLOW_UNEXPECTED⟩ 4
          gst_lrc_demux_init).map (·.2)
        = some [[Action.push { data := some ['a'], timestamp := some 1000000000 }],
                [Action.push { data := some ['b'], timestamp := some 2000000000 }, Action.eos],
                [Action.pause], [Action.pause]] :=
  ⟨by decide,
    drive_pushes_each_entry_once
      ⟨["[00:01.00]a\n[00:02.00]b\n".toList], .GST_FLOW_UNEXPECTED⟩
      { gst_lrc_demux_init with
        lyricList := [{ data := some ['a'], timestamp := some 1000000000 }]
          ++ [{ data := some ['b'], timestamp := some 2000000000 }] } none
      [{ data := some ['a'], timestamp := some 1000000000 }]
      { data := some ['b'], timestamp := some 2000000000 } (by decide) rfl 2⟩

/-- C4 fails on the code. The input `[foo]\n` holds no `[MM:SS.CC]` line, yet the line
goes to the timestamp branch, where the result of `sscanf` is not checked: an entry is
appended (its text and timestamp come from variables that were never assigned),
`gst_lrc_parse_lyrics` does not return `FALSE`, and the first call of the task function
pushes the entry and the end-of-stream event. -/
theorem unknown_tag_gives_entry :
    gst_lrc_parse_lyrics gst_lrc_demux_init ⟨["[foo]\n".toList], .GST_FLOW_UNEXPECTED⟩
        = some ({ gst_lrc_demux_init with
            lyricList := [{ data := none, timestamp := none }] }, none)
      ∧ (drive ⟨["[foo]\n".toList], .GST_FLOW_UNEXPECTED⟩ 1 gst_lrc_demux_init).map (·.2)
        = some [[Action.push { data := none, timestamp := none }, Action.eos]] := by
  decide

/-- Inputs on which the code does what C4 says. When no `'\n'`-separated piece of any
buffer starts with `[`, other than with one of the metadata prefixes, parsing leaves the
lyric list of a new instance empty whatever ends the pulls, `gst_lrc_parse_lyrics`
returns `FALSE`, and every call of the task function, the first included, only pauses
the task: no entry and no end-of-stream event is pushed. -/
theorem parse_without_bracket_line_fails (up : Upstream)
    (h : ∀ buf ∈ up.buffers, ∀ l ∈ buf.splitOn '\n',
      l.head? ≠ some '[' ∨ ∃ p ∈ metadata_prefixes, p <+: l) (k : Nat) :
    gst_lrc_parse_lyrics gst_lrc_demux_init up = some (gst_lrc_demux_init, some false)
      ∧ (drive up k gst_lrc_demux_init).map (·.2) = some (List.replicate k [Action.pause]) := by
  have hparse := parse_lyrics_skipped gst_lrc_demux_init up h
  refine ⟨hparse, ?_⟩
  cases k with
  | zero => rfl
  | succ n =>
    rw [drive_first up gst_lrc_demux_init gst_lrc_demux_init _ rfl hparse]
    exact drive_drained up { gst_lrc_demux_init with parsed := true } rfl rfl (n + 1)

/-- An instance of the preceding theorem: metadata and plain text over two buffers,
three calls. -/
theorem parse_without_bracket_line_fails_witness :
    (∀ buf ∈ ["[ti:Song]\n[ar:Some".toList, " Artist]\nnot a tag\n".toList],
        ∀ l ∈ buf.splitOn '\n', l.head? ≠ some '[' ∨ ∃ p ∈ metadata_prefixes, p <+: l)
      ∧ gst_lrc_parse_lyrics gst_lrc_demux_init
          ⟨["[ti:Song]\n[ar:Some".toList, " Artist]\nnot a tag\n".toList],
            .GST_FLOW_UNEXPECTED⟩
        = some (gst_lrc_demux_init, some false)
      ∧ (drive ⟨["[ti:Song]\n[ar:Some".toList, " Artist]\nnot a tag\n".toList],
            .GST_FLOW_UNEXPECTED⟩ 3 gst_lrc_demux_init).map (·.2)
        = some [[Action.pause], [Action.pause], [Action.pause]] :=
  ⟨by decide,
    parse_without_bracket_line_fails
      ⟨["[ti:Song]\n[ar:Some".toList, " Artist]\nnot a tag\n".toList], .GST_FLOW_UNEXPECTED⟩
      (by decide) 3⟩

/-- C7, as stated, fails: the first pull gives a whole timestamp line and a later pull
fails with an error; the first call of the task function still pushes the entry of
that line. -/
theorem read_error_still_delivers :
    (drive ⟨["[00:01.00]a\n".toList, "[00:02.00]b".toList], .GST_FLOW_ERROR⟩ 2
        gst_lrc_demux_init).map (·.2)
      = some [[Action.push { data := some ['a'], timestamp := some 1000000000 }, Action.eos],
              [Action.pause]] := by
  decide

/-- C7, amended. A pull error other than end-of-stream only ends the pull loop: the
held fragment is not parsed, `gst_lrc_parse_lyrics` leaves the instance as the buffers
received before the error made it, and when its list holds the entries
`front ++ [last]` the calls of the task function push them all, one per call in order,
then the end-of-stream event, and pause afterwards. -/
theorem read_error_keeps_buffered_entries (bufs : List (List Char)) (lrc1 : GstLrcDemux)
    (frag : Option (List Char)) (front : List GstBuffer) (last : GstBuffer)
    (h : pull_loop gst_lrc_demux_init none bufs = some (lrc1, frag))
    (hl : lrc1.lyricList = front ++ [last]) (k : Nat) :
    gst_lrc_parse_lyrics gst_lrc_demux_init ⟨bufs, .GST_FLOW_ERROR⟩ = some (lrc1, none)
      ∧ (drive ⟨bufs, .GST_FLOW_ERROR⟩ (front.length + 1 + k) gst_lrc_demux_init).map (·.2)
        = some (front.map (fun e => [Action.push e]) ++ [[Action.push last, Action.eos]]
            ++ List.replicate k [Action.pause]) := by
  have hparse : gst_lrc_parse_lyrics gst_lrc_demux_init ⟨bufs, .GST_FLOW_ERROR⟩
      = some (lrc1, none) := by
    simp only [gst_lrc_parse_lyrics, h, pull_stop]
    cases frag <;> simp [hl]
  refine ⟨hparse, ?_⟩
  have hk : front.length + 1 + k = (front.length + k) + 1 := by omega
  rw [hk, drive_first ⟨bufs, .GST_FLOW_ERROR⟩ gst_lrc_demux_init lrc1 none rfl hparse, ← hk]
  exact drive_parsed _ { lrc1 with parsed := true } rfl front last hl k

/-- Witness of C7 amended: the line completed before the error is delivered, the
fragment `[00:02.00]b` is not. -/
theorem read_error_keeps_buffered_entries_witness :
    pull_loop gst_lrc_demux_init none ["[00:01.00]a\n".toList, "[00:02.00]b".toList]
        = some ({ gst_lrc_demux_init with
            lyricList := [] ++ [{ data := some ['a'], timestamp := some 1000000000 }] },
            some "[00:02.00]b".toList)
      ∧ (drive ⟨["[00:01.00]a\n".toList, "[00:02.00]b".toList], .GST_FLOW_ERROR⟩ 2
          gst_lrc_demux_init).map (·.2)
        = some [[Action.push { data := some ['a'], timestamp := some 1000000000 }, Action.eos],
                [Action.pause]] :=
  ⟨by decide,
    (read_error_keeps_buffered_entries ["[00:01.00]a\n".toList, "[00:02.00]b".toList]
      { gst_lrc_demux_init with
        lyricList := [] ++ [{ data := some ['a'], timestamp := some 1000000000 }] }
      (some "[00:02.00]b".toList) [] { data := some ['a'], timestamp := some 1000000000 }
      (by decide) rfl 1).2⟩

/-! ## The text after the tag, and lines that are not a tag -/

theorem parse_line_tag (lrc : GstLrcDemux) (m1 m2 s1 s2 c1 c2 : Char) (R : List Char)
    (hm1 : isdigit m1 = true) (hm2 : isdigit m2 = true) (hs1 : isdigit s1 = true)
    (hs2 : isdigit s2 = true) (hc1 : isdigit c1 = true) (hc2 : isdigit c2 = true) :
    gst_lrc_parse_line lrc ('[' :: m1 :: m2 :: ':' :: s1 :: s2 :: '.' :: c1 :: c2 :: ']' :: R)
      = match scan_s (cstr R) 100 with
        | .overrun => none
        | .stop => some { lrc with
            lyricList := lrc.lyricList ++
              [{ data := none,
                 timestamp := some (((10 * digit_value m1 + digit_value m2) * 60
                    + (10 * digit_value s1 + digit_value s2)) * 1000000000
                    + (10 * digit_value c1 + digit_value c2) * 10 * 1000000) }] }
        | .value w => some { lrc with
            lyricList := lrc.lyricList ++
              [{ data := some w,
                 timestamp := some (((10 * digit_value m1 + digit_value m2) * 60
                    + (10 * digit_value s1 + digit_value s2)) * 1000000000
                    + (10 * digit_value c1 + digit_value c2) * 10 * 1000000) }] } := by
  obtain ⟨-, -, -, m1n, m1t, m1a, m1b, m1r, m1v, m1o, m1lt⟩ := digit_facts m1 hm1
  obtain ⟨-, -, -, m2n, -, -, -, -, -, -, m2lt⟩ := digit_facts m2 hm2
  obtain ⟨-, -, -, s1n, -, -, -, -, -, -, s1lt⟩ := digit_facts s1 hs1
  obtain ⟨-, -, -, s2n, -, -, -, -, -, -, s2lt⟩ := digit_facts s2 hs2
  obtain ⟨-, -, -, c1n, -, -, -, -, -, -, c1lt⟩ := digit_facts c1 hc1
  obtain ⟨-, -, -, c2n, -, -, -, -, -, -, c2lt⟩ := digit_facts c2 hc2
  have hnul : NUL ∉ ['[', m1, m2, ':', s1, s2, '.', c1, c2, ']'] := by
    simp only [List.mem_cons, List.mem_singleton, List.not_mem_nil, or_false, not_or]
    exact ⟨by decide, Ne.symm m1n, Ne.symm m2n, by decide, Ne.symm s1n, Ne.symm s2n,
      by decide, Ne.symm c1n, Ne.symm c2n, by decide⟩
  have hcstr : cstr ('[' :: m1 :: m2 :: ':' :: s1 :: s2 :: '.' :: c1 :: c2 :: ']' :: R)
      = '[' :: m1 :: m2 :: ':' :: s1 :: s2 :: '.' :: c1 :: c2 :: ']' :: cstr R :=
    cstr_append_of_not_mem ['[', m1, m2, ':', s1, s2, '.', c1, c2, ']'] R hnul
  have hts : timestamp_of (10 * digit_value m1 + digit_value m2)
      (10 * digit_value s1 + digit_value s2) (10 * digit_value c1 + digit_value c2)
      = ((10 * digit_value m1 + digit_value m2) * 60
          + (10 * digit_value s1 + digit_value s2)) * 1000000000
          + (10 * digit_value c1 + digit_value c2) * 10 * 1000000 := by
    apply timestamp_of_exact <;> omega
  have hscan : sscanf ('[' :: m1 :: m2 :: ':' :: s1 :: s2 :: '.' :: c1 :: c2 :: ']' :: cstr R)
      = match scan_s (cstr R) 100 with
        | .overrun => none
        | .stop => some ⟨some (10 * digit_value m1 + digit_value m2),
            some (10 * digit_value s1 + digit_value s2),
            some (10 * digit_value c1 + digit_value c2), none⟩
        | .value w => some ⟨some (10 * digit_value m1 + digit_value m2),
            some (10 * digit_value s1 + digit_value s2),
            some (10 * digit_value c1 + digit_value c2), some w⟩ := by
    simp only [sscanf, scan_lit, beq_self_eq_true, if_true,
      scan_d_two_digits m1 m2 ':' _ hm1 hm2 (by decide),
      scan_d_two_digits s1 s2 '.' _ hs1 hs2 (by decide),
      scan_d_two_digits c1 c2 ']' _ hc1 hc2 (by decide)]
  have hhead : (('[' :: m1 :: m2 :: ':' :: s1 :: s2 :: '.' :: c1 :: c2 :: ']' :: cstr R).head?
      == some '[') = true := by simp
  have hpre : ∀ p ∈ metadata_prefixes, strncmp
      ('[' :: m1 :: m2 :: ':' :: s1 :: s2 :: '.' :: c1 :: c2 :: ']' :: R) p p.length = false := by
    intro p hp
    simp only [metadata_prefixes, List.mem_cons, List.mem_singleton, List.not_mem_nil,
      or_false] at hp
    rcases hp with rfl | rfl | rfl | rfl | rfl | rfl | rfl <;>
      (simp only [strncmp, hcstr]
       simp [cstr, NUL, List.takeWhile_cons, m1t, m1a, m1b, m1r, m1v, m1o])
  have h1 := hpre ['[', 't', 'i', ':'] (by decide)
  have h2 := hpre ['[', 'a', 'r', ':'] (by decide)
  have h3 := hpre ['[', 'a', 'l', ':'] (by decide)
  have h4 := hpre ['[', 'b', 'y', ':'] (by decide)
  have h5 := hpre ['[', 'r', 'e', ':'] (by decide)
  have h6 := hpre ['[', 'v', 'e', ':'] (by decide)
  have h7 := hpre ['[', 'o', 'f', 'f', 's', 'e', 't', ':'] (by decide)
  simp only [List.length_cons, List.length_nil] at h1 h2 h3 h4 h5 h6 h7
  rw [gst_lrc_parse_line, hcstr, hhead, hscan]
  simp only [h1, h2, h3, h4, h5, h6, h7, if_true, Bool.false_eq_true, if_false]
  cases scan_s (cstr R) 100 <;> simp [make_buffer, hts]

theorem scan_s_spaced (ws word rest : List Char) (n : Nat)
    (hws : ∀ c ∈ ws, isspace c = true) (hword : ∀ c ∈ word, isspace c = false)
    (hne : word ≠ []) (hlen : word.length + 1 ≤ n)
    (hrest : ∀ c, rest.head? = some c → isspace c = true) :
    scan_s (ws ++ word ++ rest) n = .value word := by
  have h1 : (ws ++ word ++ rest).dropWhile isspace = word ++ rest := by
    induction ws with
    | nil =>
      cases word with
      | nil => exact absurd rfl hne
      | cons c t => simp [List.dropWhile_cons, hword c (List.mem_cons_self _ _)]
    | cons c t ih =>
      have hc := hws c (List.mem_cons_self _ _)
      simp only [List.cons_append, List.dropWhile_cons, hc, if_true]
      exact ih (fun x hx => hws x (List.mem_cons_of_mem _ hx))
  have h2 : (word ++ rest).takeWhile (fun c => !isspace c) = word := by
    clear hne hlen h1
    induction word with
    | nil =>
      cases rest with
      | nil => rfl
      | cons c t => simp [List.takeWhile_cons, hrest c rfl]
    | cons c t ih =>
      have hc := hword c (List.mem_cons_self _ _)
      simp only [List.cons_append, List.takeWhile_cons, hc, Bool.not_false, if_true]
      rw [ih (fun x hx => hword x (List.mem_cons_of_mem _ hx))]
  simp only [scan_s, h1, h2]
  simp [hne, hlen]

theorem cstr_head_space (rest : List Char)
    (hrest : ∀ c, rest.head? = some c → isspace c = true) :
    ∀ c, (cstr rest).head? = some c → isspace c = true := by
  intro c hc
  cases rest with
  | nil => simp [cstr] at hc
  | cons d t =>
    have hd := hrest d rfl
    have hn : d ≠ NUL := by
      intro e
      subst e
      exact absurd hd (by decide)
    simp [cstr, List.takeWhile_cons, hn] at hc
    exact hc ▸ hd

theorem scan_s_value_ne_nil (s : List Char) (n : Nat) (w : List Char)
    (h : scan_s s n = .value w) : w ≠ [] := by
  simp only [scan_s] at h
  split at h
  · cases h
  · split at h
    · cases h
      intro e
      simp_all
    · cases h

theorem sscanf_lyric_ne_nil (s : List Char) (v : Locals) (h : sscanf s = some v) :
    v.lyric ≠ some [] := by
  unfold sscanf at h
  iterate 8 (all_goals (try split at h))
  all_goals first
    | (cases h; done)
    | (cases h; simp; done)
    | (cases h; rename_i hw; simpa using scan_s_value_ne_nil _ _ _ hw)

theorem prefix_of_strncmp (line p : List Char) (hp : NUL ∉ p)
    (h : strncmp line p p.length = true) : p <+: line := by
  simp only [strncmp, cstr_eq_self p hp, List.take_length, beq_iff_eq] at h
  have h1 : List.take p.length (cstr line) <+: cstr line := List.take_prefix _ _
  rw [h] at h1
  exact h1.trans (List.takeWhile_prefix _)

theorem parse_line_bracket (lrc : GstLrcDemux) (line : List Char)
    (h1 : line.head? = some '[') (h2 : ∀ p ∈ metadata_prefixes, ¬ p <+: line) :
    gst_lrc_parse_line lrc line
      = (sscanf (cstr line)).map fun v =>
          { lrc with lyricList := lrc.lyricList ++ [make_buffer v] } := by
  have hn : ∀ p ∈ metadata_prefixes, NUL ∉ p := by decide
  have hf : ∀ p ∈ metadata_prefixes, strncmp line p p.length = false := by
    intro p hp
    cases hs : strncmp line p p.length with
    | false => rfl
    | true => exact absurd (prefix_of_strncmp line p (hn p hp) hs) (h2 p hp)
  have f1 := hf ['[', 't', 'i', ':'] (by decide)
  have f2 := hf ['[', 'a', 'r', ':'] (by decide)
  have f3 := hf ['[', 'a', 'l', ':'] (by decide)
  have f4 := hf ['[', 'b', 'y', ':'] (by decide)
  have f5 := hf ['[', 'r', 'e', ':'] (by decide)
  have f6 := hf ['[', 'v', 'e', ':'] (by decide)
  have f7 := hf ['[', 'o', 'f', 'f', 's', 'e', 't', ':'] (by decide)
  simp only [List.length_cons, List.length_nil] at f1 f2 f3 f4 f5 f6 f7
  have hh : ((cstr line).head? == some '[') = true := by
    simpa using (cstr_head line).2 h1
  rw [gst_lrc_parse_line, hh]
  simp only [f1, f2, f3, f4, f5, f6, f7, if_true, Bool.false_eq_true, if_false]
  cases sscanf (cstr line) <;> rfl

/-- C11, as stated, fails: in `[00:01.00] Hello world` the remaining text begins with
a space, so its longest prefix without white space is empty, yet the text of the entry
is `Hello`: the `%s` directive skips leading white space. -/
theorem parse_line_skips_leading_space :
    (gst_lrc_parse_line gst_lrc_demux_init "[00:01.00] Hello world".toList).map
        (·.lyricList)
        = some [{ data := some "Hello".toList, timestamp := some 1000000000 }]
      ∧ " Hello world".toList.takeWhile (fun c => !isspace c) = [] := by
  decide

/-- The two cases that the amended C11 leaves out: with nothing but white space after
the tag the text of the entry is never assigned, and with a word of 100 characters the
write into `lyric[100]` runs past the array. -/
theorem parse_line_text_unassigned_or_overrun :
    (gst_lrc_parse_line gst_lrc_demux_init "[00:01.00]".toList).map (·.lyricList)
        = some [{ data := none, timestamp := some 1000000000 }]
      ∧ (gst_lrc_parse_line gst_lrc_demux_init "[00:01.00]  ".toList).map (·.lyricList)
        = some [{ data := none, timestamp := some 1000000000 }]
      ∧ gst_lrc_parse_line gst_lrc_demux_init
          ("[00:01.00]".toList ++ List.replicate 100 'a') = none := by
  decide

/-- C11, amended. For every line made of a tag `[MM:SS.CC]` (two decimal digits in
each field) followed by a run `ws` of white space (possibly empty), a word of 1 to 99
characters without white space, and a rest that is empty or begins with white space,
the text of the appended entry is exactly the word: the first word of the remaining
text once its leading white space is skipped, so `[00:01.00]Hello world` gives
`Hello`. -/
theorem parse_line_text_is_first_word (lrc : GstLrcDemux) (m1 m2 s1 s2 c1 c2 : Char)
    (ws word rest : List Char)
    (hm1 : isdigit m1 = true) (hm2 : isdigit m2 = true) (hs1 : isdigit s1 = true)
    (hs2 : isdigit s2 = true) (hc1 : isdigit c1 = true) (hc2 : isdigit c2 = true)
    (hws : ∀ c ∈ ws, isspace c = true)
    (hword : ∀ c ∈ word, isspace c = false ∧ c ≠ NUL)
    (hne : word ≠ []) (hlen : word.length ≤ 99)
    (hrest : ∀ c ∈ rest.head?, isspace c = true) :
    gst_lrc_parse_line lrc
        ('[' :: m1 :: m2 :: ':' :: s1 :: s2 :: '.' :: c1 :: c2 :: ']' :: (ws ++ word ++ rest))
      = some { lrc with
          lyricList := lrc.lyricList ++
            [{ data := some word,
               timestamp := some (((10 * digit_value m1 + digit_value m2) * 60
                  + (10 * digit_value s1 + digit_value s2)) * 1000000000
                  + (10 * digit_value c1 + digit_value c2) * 10 * 1000000) }] } := by
  have hnul : NUL ∉ ws ++ word := by
    intro h
    rcases List.mem_append.1 h with h | h
    · exact absurd (hws NUL h) (by decide)
    · exact (hword NUL h).2 rfl
  have hscan : scan_s (cstr (ws ++ word ++ rest)) 100 = .value word := by
    rw [cstr_append_of_not_mem (ws ++ word) rest hnul]
    exact scan_s_spaced ws word (cstr rest) 100 hws (fun c hc => (hword c hc).1) hne
      (by omega) (cstr_head_space rest (fun c hc => hrest c hc))
  rw [parse_line_tag lrc m1 m2 s1 s2 c1 c2 _ hm1 hm2 hs1 hs2 hc1 hc2, hscan]

/-- Witness of C11 amended: `[00:01.00]Hello world` gives the text `Hello`. -/
theorem parse_line_text_is_first_word_witness :
    gst_lrc_parse_line gst_lrc_demux_init "[00:01.00]Hello world".toList
      = some { gst_lrc_demux_init with
          lyricList := [{ data := some "Hello".toList, timestamp := some 1000000000 }] } :=
  parse_line_text_is_first_word gst_lrc_demux_init '0' '0' '0' '1' '0' '0'
    [] "Hello".toList " world".toList
    (by decide) (by decide) (by decide) (by decide) (by decide) (by decide) (by decide)
    (by decide) (by decide) (by decide) (by decide)

/-- The policy of the code for every line that starts with `[` without a metadata
prefix, whenever the call is defined: exactly one entry is appended, and its text is
never the empty string (it is a non-empty word, or it was never assigned). -/
theorem parse_line_bracket_appends_one (lrc lrc1 : GstLrcDemux) (line : List Char)
    (h1 : line.head? = some '[') (h2 : ∀ p ∈ metadata_prefixes, ¬ p <+: line)
    (h : gst_lrc_parse_line lrc line = some lrc1) :
    ∃ b : GstBuffer, lrc1.lyricList = lrc.lyricList ++ [b] ∧ b.data ≠ some [] := by
  rw [parse_line_bracket lrc line h1 h2] at h
  cases hs : sscanf (cstr line) with
  | none => simp [hs] at h
  | some v =>
    simp only [hs, Option.map_some', Option.some.injEq] at h
    subst h
    exact ⟨make_buffer v, rfl, sscanf_lyric_ne_nil _ v hs⟩

/-- C12 fails on the code. The lines `[foo]` (no numeric field) and `[02:15.30Hello`
(no `]`) each get an entry appended, and its text is neither absent nor empty: it is
copied from the array `lyric`, which `sscanf` never wrote (for `[foo]` the timestamp is
computed from unassigned variables as well). -/
theorem malformed_tag_text_unassigned :
    (gst_lrc_parse_line gst_lrc_demux_init "[foo]".toList).map (·.lyricList)
        = some [{ data := none, timestamp := none }]
      ∧ (gst_lrc_parse_line gst_lrc_demux_init "[02:15.30Hello".toList).map (·.lyricList)
        = some [{ data := none, timestamp := some 135300000000 }] := by
  decide

/-! ## Timestamp fields of any size -/

end GstLrc
